import Mathlib

/-
  Verification of the TailMind client-side API/data-orchestration layer.

  Shallow embedding of the JavaScript source:
  - src/lib/api.js               : formatDate, formatRelativeTime
  - src/pages/Inbox.jsx          : fetchInbox normalization, toggleSelect, task badge
  - src/pages/Drafts.jsx         : fetchDrafts normalization, toggleSelect, deleteSelected
  - src/pages/EmailDetail.jsx    : task extraction from processing.tasks_json
  - src/components/ChatBox.jsx   : sendQuery, generateDraft, saveDraft

  Modelling conventions:
  - A JavaScript Date value is modelled as a record of its millisecond time value
    and its getFullYear result; the code never relates the two, so the relation
    between them is not modelled.
  - Math.floor(a / b) on numbers is modelled as Int.fdiv (floor division).
  - Outputs of toLocaleDateString are modelled as dedicated constructors of the
    result type, since their rendered text is locale dependent; fixed strings
    produced by the code are modelled as the exact string literals of the source.
  - Asynchronous request outcomes are passed in as explicit oracle arguments
    (the resolved body, or a marker for a rejected promise), and each handler is
    a pure function from the pre-state and the outcome to the post-state plus
    observable effects (call issued, alert shown, refresh callback invoked).
  - JavaScript truthiness is modelled where the code relies on it: Option.none
    and the empty string and the number 0 are falsy where the source applies
    the operators not and logical-or to such values.
-/

/- ===================== Time formatter (src/lib/api.js) ===================== -/

/-- Model of a valid JavaScript Date: millisecond epoch time plus the
getFullYear value. -/
structure JsDate where
  time : Int
  year : Int
deriving DecidableEq, Repr

/-- Input to the formatters: a falsy value (empty string, null, undefined),
a non-empty string that does not parse to a valid date, or a valid date. -/
inductive TsInput where
  | empty
  | invalid (raw : String)
  | valid (d : JsDate)
deriving DecidableEq, Repr

/-- Result of a formatter: a concrete string, or one of the
toLocaleDateString renderings, which are locale dependent and therefore kept
symbolic.  The constructor localeShort models
toLocaleDateString("en-US", {month, day, year?}); localeDefault models a
zero-argument toLocaleDateString on a valid date; invalidDate models a
zero-argument toLocaleDateString on an invalid date. -/
inductive Fmt where
  | str (s : String)
  | localeShort (d : JsDate) (withYear : Bool)
  | localeDefault (d : JsDate)
  | invalidDate
deriving DecidableEq, Repr

/-- Model of Math.floor(a / b) for b > 0, as used by both formatters. -/
def jsFloorDiv (a b : Int) : Int := Int.fdiv a b

/-- Embedding of formatDate (src/lib/api.js lines 56-89).  The falsy check
on the argument returns the empty string; an invalid date returns the raw
input unchanged; otherwise the minute/hour/day buckets are computed by floor
division of the millisecond difference, and the final branch renders an
en-US short date with the year included exactly when the year of the date
differs from the current year. -/
def formatDate (ts : TsInput) (now : JsDate) : Fmt :=
  match ts with
  | .empty => .str ""
  | .invalid raw => .str raw
  | .valid d =>
    let diffMs := now.time - d.time
    let diffMins := jsFloorDiv diffMs 60000
    let diffHours := jsFloorDiv diffMs 3600000
    let diffDays := jsFloorDiv diffMs 86400000
    if diffMins < 1 then .str "Just now"
    else if diffMins < 60 then .str (toString diffMins ++ "m ago")
    else if diffHours < 24 then .str (toString diffHours ++ "h ago")
    else if diffDays < 7 then .str (toString diffDays ++ "d ago")
    else .localeShort d (d.year != now.year)

/-- Embedding of formatRelativeTime (src/lib/api.js lines 96-118).  The falsy
check returns the empty string.  On an invalid date every NaN comparison is
false, so control falls through to toLocaleDateString on the invalid date.
On a valid date the buckets are computed by successive floor divisions
(milliseconds to seconds to minutes to hours to days), each unit pluralized
with an s exactly when the count exceeds 1. -/
def formatRelativeTime (ts : TsInput) (now : JsDate) : Fmt :=
  match ts with
  | .empty => .str ""
  | .invalid _ => .invalidDate
  | .valid d =>
    let diffMs := now.time - d.time
    let diffSecs := jsFloorDiv diffMs 1000
    let diffMins := jsFloorDiv diffSecs 60
    let diffHours := jsFloorDiv diffMins 60
    let diffDays := jsFloorDiv diffHours 24
    if diffSecs < 60 then .str "just now"
    else if diffMins < 60 then
      .str (toString diffMins ++ " minute" ++ (if diffMins > 1 then "s" else "") ++ " ago")
    else if diffHours < 24 then
      .str (toString diffHours ++ " hour" ++ (if diffHours > 1 then "s" else "") ++ " ago")
    else if diffDays < 7 then
      .str (toString diffDays ++ " day" ++ (if diffDays > 1 then "s" else "") ++ " ago")
    else .localeDefault d

/-- Modelled from the spec: a relative phrase with the unit pluralized as the
spec demands, singular exactly when the count is 1.  Used to compare the
source pluralization against the claimed one. -/
def relPhraseSpec (n : Int) (unit : String) : String :=
  toString n ++ " " ++ unit ++ (if n = 1 then "" else "s") ++ " ago"

/-- Modelled from the spec: recognizer for outputs that are relative phrases
(the phrase just now, or a count followed by a unit and ago).  A locale date
rendering is not a relative phrase. -/
def isRelativePhrase : Fmt → Bool
  | .str s => s = "just now" || s.endsWith " ago"
  | _ => false

/- ===================== Data model ===================== -/

/-- Client-side email record; only the fields the verified handlers inspect
are carried (normalization passes elements through untouched). -/
structure Email where
  id : Nat
  subject : String
deriving DecidableEq, Repr

/-- Client-side draft record as stored in the Drafts panel list. -/
structure Draft where
  id : Nat
  subject : String
deriving DecidableEq, Repr

/-- Minimal JSON value model, used for the defensively parsed tasks field. -/
inductive Json where
  | null
  | jbool (b : Bool)
  | num (n : Int)
  | str (s : String)
  | arr (xs : List Json)
  | obj (fields : List (String × Json))

/- ===================== Inbox panel (src/pages/Inbox.jsx) ===================== -/

namespace Inbox

/-- Shapes a GET /inbox response body can take, as distinguished by the
normalizer: a falsy body, a bare array, a wrapped object with an emails
field, or a truthy value with no emails field (tagged for identification). -/
inductive Body where
  | jsNull
  | bare (emails : List Email)
  | wrapped (emails : List Email)
  | otherObj (tag : String)
deriving DecidableEq, Repr

/-- Value the Inbox panel stores in its emails state: a list, or a raw
non-array value stored as-is. -/
inductive Stored where
  | list (emails : List Email)
  | raw (tag : String)
deriving DecidableEq, Repr

/-- Embedding of the normalization step of fetchInbox (src/pages/Inbox.jsx
lines 44-65): emailList = res.data.emails or res.data or [].  A wrapped body
yields its emails field (a JavaScript array is truthy even when empty); a
bare array has no emails field and is kept itself; a truthy non-array body
also has no emails field and is stored as-is; a falsy body falls through to
the empty-array default (and a null body throws on property access, landing
in the catch handler which also stores the empty list). -/
def fetchInbox : Body → Stored
  | .wrapped es => .list es
  | .bare es => .list es
  | .otherObj t => .raw t
  | .jsNull => .list []

/-- Embedding of toggleSelect (src/pages/Inbox.jsx lines 88-95).  The
selection is a JavaScript object used as a map from id to true; toggling
deletes the key when present and inserts it when absent.  An object keyed by
ids is a finite set of ids. -/
def toggleSelect (selected : Finset Nat) (id : Nat) : Finset Nat :=
  if id ∈ selected then selected.erase id else insert id selected

/-- Embedding of the task badge computation (src/pages/Inbox.jsx lines
187-199).  The argument is the outcome of the guarded expression
(typeof e.tasks === string ? JSON.parse(e.tasks) : e.tasks): none when
JSON.parse threw inside the try (the catch renders nothing), some j when it
produced the value j.  A badge with the task count is rendered only for a
non-empty array. -/
def taskBadge : Option Json → Option Nat
  | none => none
  | some (.arr xs) => if xs.length > 0 then some xs.length else none
  | some _ => none

end Inbox

/- ===================== Drafts panel (src/pages/Drafts.jsx) ===================== -/

namespace Drafts

/-- Shapes a GET /drafts response body can take, mirroring Inbox.Body with
the drafts wrapper field. -/
inductive Body where
  | jsNull
  | bare (drafts : List Draft)
  | wrapped (drafts : List Draft)
  | otherObj (tag : String)
deriving DecidableEq, Repr

/-- Outcome of the fetchDrafts normalization: the list stored in state and
whether the invalid-response-format error was set. -/
structure FetchResult where
  drafts : List Draft
  invalidFormat : Bool
deriving DecidableEq, Repr

/-- Embedding of the normalization step of fetchDrafts (src/pages/Drafts.jsx
lines 145-170): draftsList = res.data.drafts or res.data or [], followed by
an Array.isArray guard.  A non-array result sets the empty list together
with the invalid-response-format error. -/
def fetchDrafts : Body → FetchResult
  | .wrapped ds => ⟨ds, false⟩
  | .bare ds => ⟨ds, false⟩
  | .otherObj _ => ⟨[], true⟩
  | .jsNull => ⟨[], false⟩

/-- Embedding of toggleSelect (src/pages/Drafts.jsx lines 28-34): the
selection is an array of ids; a present id is removed by filtering, an
absent id is appended. -/
def toggleSelect (selected : List Nat) (id : Nat) : List Nat :=
  if selected.contains id then selected.filter (fun x => x ≠ id)
  else selected ++ [id]

/-- Local state of the Drafts panel relevant to batch delete. -/
structure State where
  drafts : List Draft
  selectedIds : List Nat
deriving DecidableEq, Repr

/-- Observable outcome of one deleteSelected invocation: the post-state,
whether the DELETE call was issued, whether any fetch was issued, and
whether the failure alert was shown. -/
structure DeleteResult where
  state : State
  deleteCallMade : Bool
  refetchMade : Bool
  alerted : Bool
deriving DecidableEq, Repr

/-- Embedding of deleteSelected (src/pages/Drafts.jsx lines 36-55).  An
empty selection returns immediately; a declined confirm returns without a
call; on a successful DELETE the drafts whose id is selected are filtered
out locally (no re-fetch) and the selection is cleared; on a failed DELETE
the user is alerted and state is left unchanged. -/
def deleteSelected (st : State) (confirmOk : Bool) (apiOk : Bool) : DeleteResult :=
  if st.selectedIds.isEmpty then ⟨st, false, false, false⟩
  else if !confirmOk then ⟨st, false, false, false⟩
  else if apiOk then
    ⟨⟨st.drafts.filter (fun d => !(st.selectedIds.contains d.id)), []⟩, true, false, false⟩
  else ⟨st, true, false, true⟩

end Drafts

/- ===================== Email detail panel (src/pages/EmailDetail.jsx) ===================== -/

namespace EmailDetail

/-- Embedding of the task extraction of EmailDetail (src/pages/EmailDetail.jsx
lines 36-43).  The argument models the nested state: none when processing is
absent or processing.tasks_json is falsy (tasks stays the initial empty
array), some none when JSON.parse threw (the catch resets tasks to the empty
array), some (some j) when JSON.parse produced j, which is assigned to tasks
unconditionally, array or not. -/
def extractTasks : Option (Option Json) → Json
  | none => .arr []
  | some none => .arr []
  | some (some j) => j

end EmailDetail

/- ===================== Chat panel (src/components/ChatBox.jsx) ===================== -/

namespace Chat

/-- Role of a chat message. -/
inductive Role where
  | user
  | assistant
deriving DecidableEq, Repr

/-- Chat message as held in panel-local state. -/
structure ChatMsg where
  role : Role
  text : String
deriving DecidableEq, Repr

/-- Model of the trim method of JavaScript strings: leading and trailing
whitespace characters are removed.  Defined by structural recursion on the
character list so that concrete inputs evaluate inside the kernel. -/
def dropLeadingWs : List Char → List Char
  | [] => []
  | c :: cs => if c.isWhitespace then dropLeadingWs cs else c :: cs

/-- Model of input.trim(): drop leading whitespace, then trailing whitespace
(as leading whitespace of the reversed character list). -/
def jsTrim (s : String) : String :=
  String.mk ((dropLeadingWs ((dropLeadingWs s.data).reverse)).reverse)

/-- Model of res.data?.reply with the logical-or fallback of sendQuery: an
absent or empty reply becomes the fixed string No reply. -/
def replyText : Option String → String
  | some r => if r = "" then "No reply." else r
  | none => "No reply."

/-- State touched by sendQuery: the message list and the input box. -/
structure SendState where
  messages : List ChatMsg
  input : String
deriving DecidableEq, Repr

/-- Embedding of sendQuery (src/components/ChatBox.jsx lines 58-81).  A
blank input (trim yields the empty string, which is falsy) returns without
any change.  Otherwise the trimmed user entry is appended and the input is
cleared; then the awaited POST /agent/chat either resolves, appending the
assistant reply (some reply, with the No-reply fallback), or rejects (none),
appending the fixed error placeholder.  Nothing is ever removed. -/
def sendQuery (st : SendState) (outcome : Option (Option String)) : SendState :=
  if jsTrim st.input = "" then st
  else
    let userText := jsTrim st.input
    let afterUser := st.messages ++ [⟨.user, userText⟩]
    match outcome with
    | some reply => ⟨afterUser ++ [⟨.assistant, replyText reply⟩], ""⟩
    | none => ⟨afterUser ++ [⟨.assistant, "Error: could not reach agent."⟩], ""⟩

/-- Draft-editor related state of the chat panel. -/
structure PanelState where
  messages : List ChatMsg
  draftEditorOpen : Bool
  draftEmailId : Option Nat
  draftSubject : String
  draftBody : String
deriving DecidableEq, Repr

/-- Draft object of a POST /agent/draft response body; every field may be
absent. -/
structure GenDraft where
  email_id : Option Nat
  subject : Option String
  body : Option String
deriving DecidableEq, Repr

/-- Outcome of the POST /agent/draft call: a rejected promise, or a resolved
body whose draft field may be absent. -/
inductive GenResponse where
  | reject
  | resolve (draft : Option GenDraft)
deriving DecidableEq, Repr

/-- Payload of the POST /agent/draft request as built by generateDraft. -/
structure DraftRequest where
  email_id : Nat
  tone : String
  save : Bool
deriving DecidableEq, Repr

/-- Observable outcome of one generateDraft invocation. -/
structure GenResult where
  state : PanelState
  request : Option DraftRequest
  alerted : Bool
deriving DecidableEq, Repr

/-- Model of the JavaScript logical-or fallback on an optional number, where
0 is falsy. -/
def jsOrNat (o : Option Nat) (dflt : Nat) : Nat :=
  match o with
  | some n => if n = 0 then dflt else n
  | none => dflt

/-- Model of the JavaScript logical-or fallback on an optional string, where
the empty string is falsy. -/
def jsOrStr (o : Option String) (dflt : String) : String :=
  match o with
  | some s => if s = "" then dflt else s
  | none => dflt

/-- Embedding of generateDraft (src/components/ChatBox.jsx lines 83-113).
Without a selected email an alert is shown and no request is issued.
Otherwise the request is posted with tone friendly and the explicit
save: false flag.  A resolved body carrying a draft pre-fills the editor
fields (with logical-or fallbacks), opens the editor and appends the
generation confirmation; a resolved body without a draft appends the
failure message; a rejected promise appends the error message. -/
def generateDraft (st : PanelState) (emailId : Option Nat) (resp : GenResponse) : GenResult :=
  match emailId with
  | none => ⟨st, none, true⟩
  | some eid =>
    let req : DraftRequest := ⟨eid, "friendly", false⟩
    match resp with
    | .reject =>
      ⟨{ st with messages := st.messages ++ [⟨.assistant, "Error generating draft."⟩] },
        some req, false⟩
    | .resolve none =>
      ⟨{ st with messages := st.messages ++ [⟨.assistant, "Draft generation failed."⟩] },
        some req, false⟩
    | .resolve (some d) =>
      ⟨{ st with
          draftEmailId := some (jsOrNat d.email_id eid),
          draftSubject := jsOrStr d.subject "",
          draftBody := jsOrStr d.body "",
          draftEditorOpen := true,
          messages := st.messages ++
            [⟨.assistant, "Draft generated — preview and save when ready."⟩] },
        some req, false⟩

/-- Saved draft object of a POST /draft/save response. -/
structure SavedDraft where
  id : Nat
deriving DecidableEq, Repr

/-- Outcome of the POST /draft/save call: a rejected promise, or a resolved
body with an optional status string and an optional draft object. -/
inductive SaveResponse where
  | reject
  | resolve (status : Option String) (draft : Option SavedDraft)
deriving DecidableEq, Repr

/-- Observable outcome of one saveDraft invocation. -/
structure SaveResult where
  state : PanelState
  callMade : Bool
  refreshInvoked : Bool
  alerted : Bool
deriving DecidableEq, Repr

/-- Embedding of saveDraft (src/components/ChatBox.jsx lines 115-138).
Without a pending draft email id an alert is shown and no request is
issued.  On a resolved body with status saved and a draft object, the
confirmation message carrying the saved id is appended, the editor is
closed, and the refresh callback is invoked.  On status saved without a
draft object the property access saved.id throws, landing in the catch
branch, which appends the error message.  On any other status the failed
message is appended.  A rejected promise appends the error message.  In all
non-success branches the editor flag is left untouched and the refresh
callback is not invoked. -/
def saveDraft (st : PanelState) (resp : SaveResponse) : SaveResult :=
  match st.draftEmailId with
  | none => ⟨st, false, false, true⟩
  | some _ =>
    match resp with
    | .reject =>
      ⟨{ st with messages := st.messages ++ [⟨.assistant, "Error saving draft."⟩] },
        true, false, false⟩
    | .resolve status draftOpt =>
      if status = some "saved" then
        match draftOpt with
        | some saved =>
          ⟨{ st with
              messages := st.messages ++
                [⟨.assistant, "Draft saved (id=" ++ toString saved.id ++ ")."⟩],
              draftEditorOpen := false },
            true, true, false⟩
        | none =>
          ⟨{ st with messages := st.messages ++ [⟨.assistant, "Error saving draft."⟩] },
            true, false, false⟩
      else
        ⟨{ st with messages := st.messages ++ [⟨.assistant, "Failed to save draft."⟩] },
          true, false, false⟩

end Chat

/- ===================== Helper lemmas ===================== -/

/-- Floor division by a nonnegative divisor agrees with Euclidean division. -/
theorem fdiv_pos_eq (a b : Int) (hb : 0 ≤ b) : jsFloorDiv a b = a / b :=
  Int.fdiv_eq_ediv a hb

/-- Source pluralization (an s exactly when the count exceeds 1) agrees with
the spec pluralization (singular exactly at 1) for every count of at least 1. -/
theorem plural_phrase_eq (n : Int) (u : String) (h : 1 ≤ n) :
    toString n ++ (" " ++ u) ++ (if n > 1 then "s" else "") ++ " ago" = relPhraseSpec n u := by
  unfold relPhraseSpec
  have hs : (if n > 1 then "s" else ("" : String)) = (if n = 1 then "" else "s") := by
    by_cases hn : n = 1
    · simp [hn]
    · have h2 : n > 1 := lt_of_le_of_ne h (Ne.symm hn)
      simp [hn, h2]
  rw [hs]
  simp [String.append_assoc]

/-- Minute phrase of the source in spec form. -/
theorem minute_phrase_eq (n : Int) (h : 1 ≤ n) :
    toString n ++ " minute" ++ (if n > 1 then "s" else "") ++ " ago" = relPhraseSpec n "minute" := by
  have h1 : (" minute" : String) = " " ++ "minute" := by decide
  rw [h1]
  exact plural_phrase_eq n "minute" h

/-- Hour phrase of the source in spec form. -/
theorem hour_phrase_eq (n : Int) (h : 1 ≤ n) :
    toString n ++ " hour" ++ (if n > 1 then "s" else "") ++ " ago" = relPhraseSpec n "hour" := by
  have h1 : (" hour" : String) = " " ++ "hour" := by decide
  rw [h1]
  exact plural_phrase_eq n "hour" h

/-- Day phrase of the source in spec form. -/
theorem day_phrase_eq (n : Int) (h : 1 ≤ n) :
    toString n ++ " day" ++ (if n > 1 then "s" else "") ++ " ago" = relPhraseSpec n "day" := by
  have h1 : (" day" : String) = " " ++ "day" := by decide
  rw [h1]
  exact plural_phrase_eq n "day" h

/-- Membership characterization of the list-based toggleSelect. -/
theorem drafts_toggle_mem (l : List Nat) (id x : Nat) :
    x ∈ Drafts.toggleSelect l id ↔ ((x = id ∧ id ∉ l) ∨ (x ∈ l ∧ x ≠ id)) := by
  unfold Drafts.toggleSelect
  by_cases h : id ∈ l
  · simp [h, List.mem_filter]
  · by_cases hx : x = id <;> simp [h, hx]

/- ===================== Claim theorems ===================== -/

/-- C1 (amended): for equal contents the fetch-path normalizers of the Inbox
and Drafts panels store the same collection whether the body is bare or
wrapped; on a body of neither shape the drafts fetch defaults to the empty
collection and flags the invalid-format error, while the inbox fetch stores
a truthy non-array body as-is and defaults to the empty collection only for
a falsy body. -/
theorem fetch_normalizer_shape_tolerance (es : List Email) (ds : List Draft) (t : String) :
    Inbox.fetchInbox (.wrapped es) = Inbox.fetchInbox (.bare es) ∧
    Drafts.fetchDrafts (.wrapped ds) = Drafts.fetchDrafts (.bare ds) ∧
    Inbox.fetchInbox .jsNull = .list [] ∧
    Drafts.fetchDrafts .jsNull = ⟨[], false⟩ ∧
    Drafts.fetchDrafts (.otherObj t) = ⟨[], true⟩ ∧
    Inbox.fetchInbox (.otherObj t) = .raw t :=
  ⟨rfl, rfl, rfl, rfl, rfl, rfl⟩

/-- C1 (counterexample): a truthy body that is neither a bare array nor a
wrapped emails object, here an object tagged detail, is stored by the inbox
fetch as-is, not as the empty collection the claim demands. -/
theorem fetch_inbox_mismatch_not_empty :
    Inbox.fetchInbox (.otherObj "detail") = .raw "detail" ∧
    Inbox.fetchInbox (.otherObj "detail") ≠ .list [] :=
  ⟨rfl, by decide⟩

/-- C5: both formatters are total by construction in this embedding (every
input constructor is mapped to a result, mirroring the guard and try/catch
structure of the source, so no exception escapes); an empty, null or
undefined input yields the empty string from both, and a non-empty input
that does not parse as a valid date is returned unchanged by formatDate. -/
theorem formatters_degenerate_inputs (now : JsDate) (s : String) :
    formatDate .empty now = .str "" ∧
    formatRelativeTime .empty now = .str "" ∧
    formatDate (.invalid s) now = .str s :=
  ⟨rfl, rfl, rfl⟩

/-- C7 (amended): a tasks field whose string is not valid JSON yields an
empty task collection at both extraction sites; a valid JSON array is used
at both sites; a valid non-array value yields no task badge in the Inbox,
but the EmailDetail extraction stores the parsed value itself, array or
not, rather than an empty collection. -/
theorem task_extraction_spec (xs : List Json) (j : Json) :
    EmailDetail.extractTasks none = .arr [] ∧
    EmailDetail.extractTasks (some none) = .arr [] ∧
    EmailDetail.extractTasks (some (some j)) = j ∧
    Inbox.taskBadge none = none ∧
    Inbox.taskBadge (some (.arr xs)) = (if xs.length > 0 then some xs.length else none) ∧
    ((∀ ys, j ≠ .arr ys) → Inbox.taskBadge (some j) = none) := by
  refine ⟨rfl, rfl, rfl, rfl, rfl, ?_⟩
  intro h
  cases j with
  | null => rfl
  | jbool b => rfl
  | num n => rfl
  | str s => rfl
  | arr ys => exact absurd rfl (h ys)
  | obj fs => rfl

/-- C7 (witness): the non-array hypothesis is discharged at the concrete
JSON number 5, on which the Inbox badge extraction yields no tasks. -/
theorem task_extraction_spec_witness :
    Inbox.taskBadge (some (.num 5)) = none :=
  (task_extraction_spec [] (.num 5)).2.2.2.2.2 (fun _ h => Json.noConfusion h)

/-- C7 (counterexample): a tasks field parsing to the valid non-array JSON
value consisting of an empty object is stored by the EmailDetail extraction
as that object, not as an empty task collection. -/
theorem emailDetail_nonarray_tasks_counterexample :
    EmailDetail.extractTasks (some (some (.obj []))) = .obj [] ∧
    EmailDetail.extractTasks (some (some (.obj []))) ≠ .arr [] :=
  ⟨rfl, by simp [EmailDetail.extractTasks]⟩

/-- C10: toggling a selection twice with the same id restores the selection
set (for the list-based Drafts selection, restores membership of every id;
for the map-based Inbox selection, restores the set exactly), and a single
toggle flips the membership of the toggled id while leaving the membership
of every other id unchanged. -/
theorem toggleSelect_spec (l : List Nat) (s : Finset Nat) (id x : Nat) :
    (x ∈ Drafts.toggleSelect (Drafts.toggleSelect l id) id ↔ x ∈ l) ∧
    (x ≠ id → (x ∈ Drafts.toggleSelect l id ↔ x ∈ l)) ∧
    (id ∈ Drafts.toggleSelect l id ↔ id ∉ l) ∧
    (Inbox.toggleSelect (Inbox.toggleSelect s id) id = s) ∧
    (x ≠ id → (x ∈ Inbox.toggleSelect s id ↔ x ∈ s)) ∧
    (id ∈ Inbox.toggleSelect s id ↔ id ∉ s) := by
  refine ⟨?_, ?_, ?_, ?_, ?_, ?_⟩
  · simp only [drafts_toggle_mem]
    by_cases h : id ∈ l <;> by_cases hx : x = id <;> simp [h, hx]
  · intro hx
    simp [drafts_toggle_mem, hx]
  · simp [drafts_toggle_mem]
  · unfold Inbox.toggleSelect
    by_cases h : id ∈ s
    · rw [if_pos h, if_neg (Finset.not_mem_erase id s)]
      exact Finset.insert_erase h
    · rw [if_neg h, if_pos (Finset.mem_insert_self id s), Finset.erase_insert h]
  · intro hx
    unfold Inbox.toggleSelect
    by_cases h : id ∈ s <;> simp [h, Finset.mem_erase, Finset.mem_insert, hx]
  · unfold Inbox.toggleSelect
    by_cases h : id ∈ s <;> simp [h]

/-- C10 (witness): the other-id hypothesis is discharged at id 2 and
other id 3 on concrete selections. -/
theorem toggleSelect_spec_witness :
    (3 ∈ Drafts.toggleSelect [1, 2] 2 ↔ 3 ∈ [1, 2]) ∧
    (Inbox.toggleSelect (Inbox.toggleSelect {1, 2} 2) 2 = {1, 2}) :=
  ⟨(toggleSelect_spec [1, 2] {1, 2} 2 3).2.1 (by decide),
   (toggleSelect_spec [1, 2] {1, 2} 2 3).2.2.2.1⟩

/-- C2: batch delete in the Drafts panel issues the DELETE call only for a
non-empty selection and only after the confirmation prompt is accepted; on
success exactly the selected ids are removed from the in-memory drafts
collection and the selection is cleared, with no fetch issued; on failure
the user is alerted and the whole state is unchanged; an empty selection
issues no call. -/
theorem drafts_deleteSelected_spec (st : Drafts.State) (c a : Bool) :
    (st.selectedIds = [] → Drafts.deleteSelected st c a = ⟨st, false, false, false⟩) ∧
    (c = false → Drafts.deleteSelected st c a = ⟨st, false, false, false⟩) ∧
    ((Drafts.deleteSelected st c a).deleteCallMade = true ↔
      (st.selectedIds ≠ [] ∧ c = true)) ∧
    (Drafts.deleteSelected st c a).refetchMade = false ∧
    (st.selectedIds ≠ [] → c = true → a = true →
      ((Drafts.deleteSelected st c a).state.selectedIds = [] ∧
       (Drafts.deleteSelected st c a).alerted = false ∧
       ∀ d, d ∈ (Drafts.deleteSelected st c a).state.drafts ↔
         (d ∈ st.drafts ∧ d.id ∉ st.selectedIds))) ∧
    (st.selectedIds ≠ [] → c = true → a = false →
      ((Drafts.deleteSelected st c a).state = st ∧
       (Drafts.deleteSelected st c a).alerted = true)) := by
  refine ⟨?_, ?_, ?_, ?_, ?_, ?_⟩
  · intro h
    simp [Drafts.deleteSelected, h]
  · intro h
    subst h
    simp [Drafts.deleteSelected]
  · by_cases h : st.selectedIds = []
    · simp [Drafts.deleteSelected, h]
    · cases c with
      | false => simp [Drafts.deleteSelected, List.isEmpty_iff, h]
      | true => cases a <;> simp [Drafts.deleteSelected, List.isEmpty_iff, h]
  · unfold Drafts.deleteSelected
    split_ifs <;> rfl
  · intro h hc ha
    subst hc
    subst ha
    refine ⟨?_, ?_, ?_⟩ <;>
      simp [Drafts.deleteSelected, List.isEmpty_iff, h, List.mem_filter]
  · intro h hc ha
    subst hc
    subst ha
    constructor <;> simp [Drafts.deleteSelected, List.isEmpty_iff, h]

/-- C2 (witness): with drafts 1, 2, 3 and selection [1, 2], an accepted
confirm and a successful call clear the selection without alerting, and
draft 3 remains exactly because its id is unselected. -/
theorem drafts_deleteSelected_spec_witness :
    (Drafts.deleteSelected ⟨[⟨1, "a"⟩, ⟨2, "b"⟩, ⟨3, "c"⟩], [1, 2]⟩ true true).state.selectedIds
      = [] ∧
    (Drafts.deleteSelected ⟨[⟨1, "a"⟩, ⟨2, "b"⟩, ⟨3, "c"⟩], [1, 2]⟩ true true).alerted = false ∧
    (⟨3, "c"⟩ ∈ (Drafts.deleteSelected ⟨[⟨1, "a"⟩, ⟨2, "b"⟩, ⟨3, "c"⟩], [1, 2]⟩
        true true).state.drafts ↔
      ((⟨3, "c"⟩ : Draft) ∈ [⟨1, "a"⟩, ⟨2, "b"⟩, ⟨3, "c"⟩] ∧
       (Draft.mk 3 "c").id ∉ [1, 2])) :=
  ⟨((drafts_deleteSelected_spec ⟨[⟨1, "a"⟩, ⟨2, "b"⟩, ⟨3, "c"⟩], [1, 2]⟩ true true).2.2.2.2.1
      (by decide) rfl rfl).1,
   ((drafts_deleteSelected_spec ⟨[⟨1, "a"⟩, ⟨2, "b"⟩, ⟨3, "c"⟩], [1, 2]⟩ true true).2.2.2.2.1
      (by decide) rfl rfl).2.1,
   ((drafts_deleteSelected_spec ⟨[⟨1, "a"⟩, ⟨2, "b"⟩, ⟨3, "c"⟩], [1, 2]⟩ true true).2.2.2.2.1
      (by decide) rfl rfl).2.2 ⟨3, "c"⟩⟩

/-- C3: on a non-blank input, sendQuery appends the trimmed user entry and
then exactly one assistant entry, the reply text on success and the fixed
error placeholder on failure; the previous history, user entry included, is
preserved in both outcomes, and a blank input changes nothing. -/
theorem chat_sendQuery_spec (st : Chat.SendState) (outcome : Option (Option String)) :
    (Chat.jsTrim st.input = "" → Chat.sendQuery st outcome = st) ∧
    (Chat.jsTrim st.input ≠ "" →
      ((∃ t, (Chat.sendQuery st outcome).messages =
          st.messages ++ [⟨.user, Chat.jsTrim st.input⟩, ⟨.assistant, t⟩]) ∧
       (outcome = none →
          (Chat.sendQuery st outcome).messages =
            st.messages ++ [⟨.user, Chat.jsTrim st.input⟩,
              ⟨.assistant, "Error: could not reach agent."⟩]) ∧
       (∀ r, outcome = some r →
          (Chat.sendQuery st outcome).messages =
            st.messages ++ [⟨.user, Chat.jsTrim st.input⟩, ⟨.assistant, Chat.replyText r⟩]))) := by
  constructor
  · intro h
    simp [Chat.sendQuery, h]
  · intro h
    cases outcome with
    | none =>
      refine ⟨⟨"Error: could not reach agent.", ?_⟩, ?_, ?_⟩
      · simp [Chat.sendQuery, h]
      · intro _
        simp [Chat.sendQuery, h]
      · intro r hr
        exact absurd hr (by simp)
    | some r =>
      refine ⟨⟨Chat.replyText r, ?_⟩, ?_, ?_⟩
      · simp [Chat.sendQuery, h]
      · intro hr
        exact absurd hr (by simp)
      · intro r2 hr
        cases hr
        simp [Chat.sendQuery, h]

/-- C3 (witness): the non-blank hypothesis is discharged on the concrete
input consisting of hi surrounded by spaces, with a failing call. -/
theorem chat_sendQuery_spec_witness :
    (Chat.sendQuery ⟨[], " hi "⟩ none).messages =
      [⟨.user, "hi"⟩, ⟨.assistant, "Error: could not reach agent."⟩] := by
  have h := ((chat_sendQuery_spec ⟨[], " hi "⟩ none).2 (by decide)).2.1 rfl
  exact h.trans (by decide)

/-- C8: with a pending draft, a POST /draft/save response with status saved
and a draft of id N closes the editor, appends the confirmation message
carrying id N, and invokes the refresh callback; a response without status
saved, or a failed call, leaves the editor flag untouched, appends a failure
message instead, and does not invoke the refresh callback. -/
theorem chat_saveDraft_spec (st : Chat.PanelState) (resp : Chat.SaveResponse) :
    (st.draftEmailId = none → Chat.saveDraft st resp = ⟨st, false, false, true⟩) ∧
    (st.draftEmailId ≠ none →
      ((∀ d, resp = .resolve (some "saved") (some d) →
         Chat.saveDraft st resp =
           ⟨{ st with
                messages := st.messages ++
                  [⟨.assistant, "Draft saved (id=" ++ toString d.id ++ ")."⟩],
                draftEditorOpen := false },
             true, true, false⟩) ∧
       (∀ status draftOpt, resp = .resolve status draftOpt → status ≠ some "saved" →
         Chat.saveDraft st resp =
           ⟨{ st with messages := st.messages ++ [⟨.assistant, "Failed to save draft."⟩] },
             true, false, false⟩) ∧
       (resp = .reject →
         Chat.saveDraft st resp =
           ⟨{ st with messages := st.messages ++ [⟨.assistant, "Error saving draft."⟩] },
             true, false, false⟩))) := by
  constructor
  · intro h
    simp [Chat.saveDraft, h]
  · intro h
    match hd : st.draftEmailId with
    | none => exact absurd hd h
    | some eid =>
      refine ⟨?_, ?_, ?_⟩
      · intro d hr
        subst hr
        simp [Chat.saveDraft, hd]
      · intro status draftOpt hr hs
        subst hr
        simp [Chat.saveDraft, hd, hs]
      · intro hr
        subst hr
        simp [Chat.saveDraft, hd]

/-- C8 (witness): the pending-draft hypothesis is discharged with draft
email id 7, applying the saved branch at id 42: the editor closes, the
confirmation carries id 42, and the refresh callback is invoked. -/
theorem chat_saveDraft_spec_witness :
    Chat.saveDraft ⟨[], true, some 7, "s", "b"⟩ (.resolve (some "saved") (some ⟨42⟩)) =
      ⟨⟨[⟨.assistant, "Draft saved (id=42)."⟩], false, some 7, "s", "b"⟩,
        true, true, false⟩ := by
  have h := ((chat_saveDraft_spec ⟨[], true, some 7, "s", "b"⟩
      (.resolve (some "saved") (some ⟨42⟩))).2 (by decide)).1 ⟨42⟩ rfl
  exact h.trans (by decide)

/-- C9: with no selected email no draft-generation request is issued; every
issued request carries the explicit save false flag (and tone friendly);
and a resolved response carrying a draft opens the editor pre-filled from
the draft fields, with the subject taken verbatim when present and
non-empty, and appends the generation confirmation message. -/
theorem chat_generateDraft_spec (st : Chat.PanelState) (emailId : Option Nat)
    (resp : Chat.GenResponse) :
    (emailId = none → Chat.generateDraft st emailId resp = ⟨st, none, true⟩) ∧
    (∀ req, (Chat.generateDraft st emailId resp).request = some req → req.save = false) ∧
    (∀ eid d, emailId = some eid → resp = .resolve (some d) →
      ((Chat.generateDraft st emailId resp).state.draftEditorOpen = true ∧
       (Chat.generateDraft st emailId resp).state.draftSubject = Chat.jsOrStr d.subject "" ∧
       (Chat.generateDraft st emailId resp).state.draftBody = Chat.jsOrStr d.body "" ∧
       (∀ s, d.subject = some s → s ≠ "" →
         (Chat.generateDraft st emailId resp).state.draftSubject = s) ∧
       (Chat.generateDraft st emailId resp).state.messages =
         st.messages ++ [⟨.assistant, "Draft generated — preview and save when ready."⟩] ∧
       (Chat.generateDraft st emailId resp).request = some ⟨eid, "friendly", false⟩)) := by
  refine ⟨?_, ?_, ?_⟩
  · intro h
    subst h
    rfl
  · intro req hreq
    cases emailId with
    | none => exact absurd hreq (by simp [Chat.generateDraft])
    | some eid =>
      cases resp with
      | reject =>
        simp [Chat.generateDraft] at hreq
        rw [← hreq]
      | resolve draftOpt =>
        cases draftOpt with
        | none =>
          simp [Chat.generateDraft] at hreq
          rw [← hreq]
        | some d =>
          simp [Chat.generateDraft] at hreq
          rw [← hreq]
  · intro eid d he hr
    subst he
    subst hr
    refine ⟨rfl, rfl, rfl, ?_, ?_, rfl⟩
    · intro s hsub hne
      simp [Chat.generateDraft, Chat.jsOrStr, hsub, hne]
    · rfl

/-- C9 (witness): the success branch is applied at email id 5 with a draft
whose subject is Re: Hi, pre-filling the editor with that subject and
issuing the request with save false. -/
theorem chat_generateDraft_spec_witness :
    (Chat.generateDraft ⟨[], false, none, "", ""⟩ (some 5)
        (.resolve (some ⟨some 9, some "Re: Hi", some "B"⟩))).state.draftEditorOpen = true ∧
    (Chat.generateDraft ⟨[], false, none, "", ""⟩ (some 5)
        (.resolve (some ⟨some 9, some "Re: Hi", some "B"⟩))).state.draftSubject = "Re: Hi" ∧
    (Chat.generateDraft ⟨[], false, none, "", ""⟩ (some 5)
        (.resolve (some ⟨some 9, some "Re: Hi", some "B"⟩))).request =
      some ⟨5, "friendly", false⟩ := by
  have h := (chat_generateDraft_spec ⟨[], false, none, "", ""⟩ (some 5)
      (.resolve (some ⟨some 9, some "Re: Hi", some "B"⟩))).2.2 5
      ⟨some 9, some "Re: Hi", some "B"⟩ rfl rfl
  exact ⟨h.1, h.2.2.2.1 "Re: Hi" rfl (by decide), h.2.2.2.2.2⟩

/-- C4 (amended): for a valid timestamp, formatDate returns the string
Just now (capitalized in the source) when the timestamp is less than one
minute in the past, the minute form when less than one hour, the hour form
when less than 24 hours, the day form when less than seven days, and
otherwise the en-US short date with the year component included exactly
when the year of the timestamp differs from the current year. -/
theorem formatDate_buckets (d now : JsDate) :
    (0 ≤ now.time - d.time → now.time - d.time < 60000 →
      formatDate (.valid d) now = .str "Just now") ∧
    (60000 ≤ now.time - d.time → now.time - d.time < 3600000 →
      (formatDate (.valid d) now =
        .str (toString (jsFloorDiv (now.time - d.time) 60000) ++ "m ago") ∧
       1 ≤ jsFloorDiv (now.time - d.time) 60000 ∧
       jsFloorDiv (now.time - d.time) 60000 < 60)) ∧
    (3600000 ≤ now.time - d.time → now.time - d.time < 86400000 →
      (formatDate (.valid d) now =
        .str (toString (jsFloorDiv (now.time - d.time) 3600000) ++ "h ago") ∧
       1 ≤ jsFloorDiv (now.time - d.time) 3600000 ∧
       jsFloorDiv (now.time - d.time) 3600000 < 24)) ∧
    (86400000 ≤ now.time - d.time → now.time - d.time < 604800000 →
      (formatDate (.valid d) now =
        .str (toString (jsFloorDiv (now.time - d.time) 86400000) ++ "d ago") ∧
       1 ≤ jsFloorDiv (now.time - d.time) 86400000 ∧
       jsFloorDiv (now.time - d.time) 86400000 < 7)) ∧
    (604800000 ≤ now.time - d.time →
      (formatDate (.valid d) now = .localeShort d (d.year != now.year) ∧
       ((d.year != now.year) = true ↔ d.year ≠ now.year))) := by
  have e60 : ∀ a : Int, jsFloorDiv a 60000 = a / 60000 :=
    fun a => fdiv_pos_eq a 60000 (by norm_num)
  have e36 : ∀ a : Int, jsFloorDiv a 3600000 = a / 3600000 :=
    fun a => fdiv_pos_eq a 3600000 (by norm_num)
  have e86 : ∀ a : Int, jsFloorDiv a 86400000 = a / 86400000 :=
    fun a => fdiv_pos_eq a 86400000 (by norm_num)
  refine ⟨?_, ?_, ?_, ?_, ?_⟩
  · intro h1 h2
    simp only [formatDate, e60, e36, e86]
    split_ifs with a1 a2 a3 a4
    · rfl
    all_goals (exfalso; omega)
  · intro h1 h2
    simp only [formatDate, e60, e36, e86]
    split_ifs with a1 a2 a3 a4
    · exfalso; omega
    · exact ⟨rfl, by omega, by omega⟩
    all_goals (exfalso; omega)
  · intro h1 h2
    simp only [formatDate, e60, e36, e86]
    split_ifs with a1 a2 a3 a4
    · exfalso; omega
    · exfalso; omega
    · exact ⟨rfl, by omega, by omega⟩
    all_goals (exfalso; omega)
  · intro h1 h2
    simp only [formatDate, e60, e36, e86]
    split_ifs with a1 a2 a3 a4
    · exfalso; omega
    · exfalso; omega
    · exfalso; omega
    · exact ⟨rfl, by omega, by omega⟩
    · exfalso; omega
  · intro h1
    simp only [formatDate, e60, e36, e86]
    split_ifs with a1 a2 a3 a4
    · exfalso; omega
    · exfalso; omega
    · exfalso; omega
    · exfalso; omega
    · exact ⟨rfl, bne_iff_ne⟩

/-- C4 (witness): the minute bucket is applied two minutes in the past,
yielding the string 2m ago. -/
theorem formatDate_buckets_witness :
    formatDate (.valid ⟨0, 2025⟩) ⟨120000, 2026⟩ = .str "2m ago" := by
  have h := (formatDate_buckets ⟨0, 2025⟩ ⟨120000, 2026⟩).2.1 (by decide) (by decide)
  exact h.1.trans (by decide)

/-- C4 (counterexample): at a timestamp zero milliseconds in the past the
source returns the capitalized string Just now, not the lowercase string
just now the claim states. -/
theorem formatDate_capitalization_counterexample :
    formatDate (.valid ⟨0, 2026⟩) ⟨0, 2026⟩ = .str "Just now" ∧
    formatDate (.valid ⟨0, 2026⟩) ⟨0, 2026⟩ ≠ .str "just now" :=
  ⟨by decide, by decide⟩

/-- C6 (amended): for a valid non-empty timestamp less than seven days in
the past, formatRelativeTime returns a relative phrase, with the unit
pluralized exactly as the spec demands (the source pluralizes at counts
above 1, which agrees with singular-at-1 since every reachable count is at
least 1); for a timestamp seven or more days in the past it returns the
default locale date rendering instead of a relative phrase. -/
theorem formatRelativeTime_phrases (d now : JsDate) :
    (0 ≤ now.time - d.time → now.time - d.time < 604800000 →
      (formatRelativeTime (.valid d) now = .str "just now" ∨
       (∃ n, 1 ≤ n ∧ n < 60 ∧
         formatRelativeTime (.valid d) now = .str (relPhraseSpec n "minute")) ∨
       (∃ n, 1 ≤ n ∧ n < 24 ∧
         formatRelativeTime (.valid d) now = .str (relPhraseSpec n "hour")) ∨
       (∃ n, 1 ≤ n ∧ n < 7 ∧
         formatRelativeTime (.valid d) now = .str (relPhraseSpec n "day")))) ∧
    (604800000 ≤ now.time - d.time →
      formatRelativeTime (.valid d) now = .localeDefault d) := by
  have e1000 : ∀ a : Int, jsFloorDiv a 1000 = a / 1000 :=
    fun a => fdiv_pos_eq a 1000 (by norm_num)
  have e60 : ∀ a : Int, jsFloorDiv a 60 = a / 60 :=
    fun a => fdiv_pos_eq a 60 (by norm_num)
  have e24 : ∀ a : Int, jsFloorDiv a 24 = a / 24 :=
    fun a => fdiv_pos_eq a 24 (by norm_num)
  constructor
  · intro h0 h7
    simp only [formatRelativeTime, e1000, e60, e24]
    by_cases a1 : (now.time - d.time) / 1000 < 60
    · rw [if_pos a1]
      exact Or.inl rfl
    · rw [if_neg a1]
      by_cases a2 : (now.time - d.time) / 1000 / 60 < 60
      · rw [if_pos a2]
        refine Or.inr (Or.inl ⟨(now.time - d.time) / 1000 / 60, ?_, a2, ?_⟩)
        · omega
        · exact congrArg Fmt.str (minute_phrase_eq _ (by omega))
      · rw [if_neg a2]
        by_cases a3 : (now.time - d.time) / 1000 / 60 / 60 < 24
        · rw [if_pos a3]
          refine Or.inr (Or.inr (Or.inl ⟨(now.time - d.time) / 1000 / 60 / 60, ?_, a3, ?_⟩))
          · omega
          · exact congrArg Fmt.str (hour_phrase_eq _ (by omega))
        · rw [if_neg a3]
          have a4 : (now.time - d.time) / 1000 / 60 / 60 / 24 < 7 := by omega
          rw [if_pos a4]
          refine Or.inr (Or.inr (Or.inr
            ⟨(now.time - d.time) / 1000 / 60 / 60 / 24, ?_, a4, ?_⟩))
          · omega
          · exact congrArg Fmt.str (day_phrase_eq _ (by omega))
  · intro h1
    simp only [formatRelativeTime, e1000, e60, e24]
    rw [if_neg (by omega), if_neg (by omega), if_neg (by omega), if_neg (by omega)]

/-- C6 (witness): ninety seconds in the past the hypotheses hold and the
result is a relative phrase, the singular phrase of one minute. -/
theorem formatRelativeTime_phrases_witness :
    formatRelativeTime (.valid ⟨0, 2026⟩) ⟨90000, 2026⟩ = .str "just now" ∨
    (∃ n, 1 ≤ n ∧ n < 60 ∧
      formatRelativeTime (.valid ⟨0, 2026⟩) ⟨90000, 2026⟩ = .str (relPhraseSpec n "minute")) ∨
    (∃ n, 1 ≤ n ∧ n < 24 ∧
      formatRelativeTime (.valid ⟨0, 2026⟩) ⟨90000, 2026⟩ = .str (relPhraseSpec n "hour")) ∨
    (∃ n, 1 ≤ n ∧ n < 7 ∧
      formatRelativeTime (.valid ⟨0, 2026⟩) ⟨90000, 2026⟩ = .str (relPhraseSpec n "day")) :=
  (formatRelativeTime_phrases ⟨0, 2026⟩ ⟨90000, 2026⟩).1 (by decide) (by decide)

/-- C6 (counterexample): ten days in the past the source returns the locale
date rendering, which is not a relative phrase, refuting the claim that
every non-empty input yields a relative phrase. -/
theorem formatRelativeTime_locale_counterexample :
    formatRelativeTime (.valid ⟨0, 2026⟩) ⟨864000000, 2026⟩ = .localeDefault ⟨0, 2026⟩ ∧
    isRelativePhrase (formatRelativeTime (.valid ⟨0, 2026⟩) ⟨864000000, 2026⟩) = false :=
  ⟨by decide, by decide⟩
